/-
Verification development for the MSPBots OpenClaw plugin resilience layer.

The development shallowly embeds the two core components of the repository:

* the Configuration Reconciliation Loop of the config-sync module
  (startConfigSync, configsAreEqual, sortObjectKeys, calculateMd5,
  readLocalConfig, writeLocalConfig, removeIgnoredFields), including the
  second config-sync variant present in the sources (startConfigSyncV2,
  whose retry bound throws and whose comparison step is commented out); and

* the Ingestion Connection Manager (the MspbotsWSClient WebSocket wrapper
  together with the monitorMspBotsProvider message listener), modelled as an
  explicit state machine driven by a trace of user calls, socket events and
  timer firings.

JavaScript values are modelled as a JSON inductive type; machine-level
strings are Lean strings; the MD5 digest of the crypto module is implemented
bit-for-bit over Nat with explicit reduction modulo 2^32.
-/
import Mathlib

/-- JSON-like JavaScript values as manipulated by the plugin.  Numbers are
restricted to integers: every numeric literal appearing in the specified
scenarios is an integer, and JavaScript float formatting is out of scope.
Object fields are kept in insertion order, as JavaScript preserves property
insertion order for the string keys used by the configuration objects. -/
inductive Json where
  | null
  | bool (b : Bool)
  | num (n : Int)
  | str (s : String)
  | arr (elems : List Json)
  | obj (fields : List (String × Json))

/-- JavaScript truthiness test restricted to JSON values: null, false, 0 and
the empty string are falsy; objects and arrays are always truthy. -/
def jsFalsy : Json → Bool
  | .null => true
  | .bool b => !b
  | .num n => n == 0
  | .str s => s == ""
  | _ => false

/-- JavaScript truthiness (negation of jsFalsy). -/
def jsTruthy (j : Json) : Bool := !(jsFalsy j)

/-- Test for the JSON null value. -/
def isNullJson : Json → Bool
  | .null => true
  | _ => false

/-- Keys returned by Object.keys.  For plain objects these are the field
names in order; arrays and strings expose their indices; primitives have no
own enumerable properties. -/
def objKeys : Json → List String
  | .obj fs => fs.map Prod.fst
  | .arr xs => xs.enum.map fun p => toString p.1
  | .str s => s.data.enum.map fun p => toString p.1
  | _ => []

/-- Lexicographic comparison of character lists by code point, mirroring the
default JavaScript Array.prototype.sort comparator on the plugin keys (which
compares strings by code unit; the two orders agree on the Basic Multilingual
Plane, and the configuration keys are plain ASCII). -/
def leB : List Char → List Char → Bool
  | [], _ => true
  | _ :: _, [] => false
  | a :: as, b :: bs =>
    if a.toNat < b.toNat then true
    else if b.toNat < a.toNat then false
    else leB as bs

theorem leB_refl : ∀ as, leB as as = true
  | [] => rfl
  | a :: as => by simp [leB, leB_refl as]

theorem leB_total : ∀ as bs, leB as bs = true ∨ leB bs as = true
  | [], _ => .inl rfl
  | _ :: _, [] => .inr rfl
  | a :: as, b :: bs => by
    by_cases h1 : a.toNat < b.toNat
    · exact .inl (by simp [leB, h1])
    · by_cases h2 : b.toNat < a.toNat
      · exact .inr (by simp [leB, h2, Nat.lt_asymm h2])
      · rcases leB_total as bs with h | h
        · exact .inl (by simp [leB, h1, h2, h])
        · exact .inr (by simp [leB, h1, h2, h])

theorem leB_antisymm : ∀ as bs, leB as bs = true → leB bs as = true → as = bs
  | [], [], _, _ => rfl
  | [], _ :: _, _, h => by simp [leB] at h
  | _ :: _, [], h, _ => by simp [leB] at h
  | a :: as, b :: bs, h1, h2 => by
    by_cases hab : a.toNat < b.toNat
    · simp [leB, hab, Nat.lt_asymm hab] at h2
    · by_cases hba : b.toNat < a.toNat
      · simp [leB, hab, hba] at h1
      · have hc : a = b := by
          apply Char.ext
          apply UInt32.ext
          unfold Char.toNat at hab hba
          omega
        subst hc
        simp only [leB, if_neg hab, if_neg hba] at h1 h2
        rw [leB_antisymm as bs h1 h2]

theorem leB_trans : ∀ as bs cs, leB as bs = true → leB bs cs = true → leB as cs = true
  | [], _, _, _, _ => rfl
  | _ :: _, [], _, h, _ => by simp [leB] at h
  | _ :: _, _ :: _, [], _, h => by simp [leB] at h
  | a :: as, b :: bs, c :: cs, h1, h2 => by
    by_cases hab : a.toNat < b.toNat
    · by_cases hbc : b.toNat < c.toNat
      · exact (by simp [leB, Nat.lt_trans hab hbc])
      · by_cases hcb : c.toNat < b.toNat
        · simp [leB, hbc, hcb] at h2
        · have : b.toNat = c.toNat := by omega
          simp [leB, this ▸ hab]
    · by_cases hba : b.toNat < a.toNat
      · simp [leB, hab, hba] at h1
      · have hab2 : a.toNat = b.toNat := by omega
        by_cases hbc : b.toNat < c.toNat
        · simp [leB, hab2 ▸ hbc]
        · by_cases hcb : c.toNat < b.toNat
          · simp [leB, hbc, hcb] at h2
          · have hbc2 : b.toNat = c.toNat := by omega
            simp only [leB, if_neg hab, if_neg hba] at h1
            simp only [leB, if_neg hbc, if_neg hcb] at h2
            have hac : ¬ a.toNat < c.toNat := by omega
            have hca : ¬ c.toNat < a.toNat := by omega
            simp only [leB, if_neg hac, if_neg hca]
            exact leB_trans as bs cs h1 h2

/-- Order on object fields used by the canonicalization: compare the keys
with the JavaScript string order. -/
def keyLe (a b : String × Json) : Prop := leB a.1.data b.1.data = true

instance : DecidableRel keyLe := fun a b => instDecidableEqBool (leB a.1.data b.1.data) true

instance : IsTotal (String × Json) keyLe := ⟨fun a b => leB_total a.1.data b.1.data⟩

instance : IsTrans (String × Json) keyLe := ⟨fun _ _ _ => leB_trans _ _ _⟩

/-- Strict companion of keyLe, used to derive uniqueness of sorted field
lists whose keys are distinct. -/
def keyLt (a b : String × Json) : Prop := keyLe a b ∧ a.1 ≠ b.1

instance : IsAntisymm (String × Json) keyLt :=
  ⟨fun a b h1 h2 => absurd (String.ext (leB_antisymm _ _ h1.1 h2.1)) h1.2⟩

mutual
/-- Model of the sortObjectKeys function of config-sync: recursively sort all
object keys so that JSON.stringify output does not depend on field order.
The source sorts the key list first and then recurses into each value; here
the values are recursively sorted in place (sortFields) and the field list is
then stably sorted by key, which produces the same object because the sort
compares keys only and field values carry no influence on the order. -/
def sortObjectKeys : Json → Json
  | .null => .null
  | .bool b => .bool b
  | .num n => .num n
  | .str s => .str s
  | .arr xs => .arr (sortList xs)
  | .obj fs => .obj (List.insertionSort keyLe (sortFields fs))
termination_by structural j => j

/-- Elementwise recursion of sortObjectKeys through an array. -/
def sortList : List Json → List Json
  | [] => []
  | x :: xs => sortObjectKeys x :: sortList xs
termination_by structural l => l

/-- Elementwise recursion of sortObjectKeys through the values of a field
list, keeping the keys and their order. -/
def sortFields : List (String × Json) → List (String × Json)
  | [] => []
  | kv :: fs => (kv.1, sortObjectKeys kv.2) :: sortFields fs
termination_by structural l => l
end

mutual
/-- Well-formedness of a JSON value as produced by JSON.parse: every object
has pairwise distinct keys (JavaScript objects cannot carry duplicates). -/
def wfKeys : Json → Bool
  | .null => true
  | .bool _ => true
  | .num _ => true
  | .str _ => true
  | .arr xs => wfList xs
  | .obj fs => decide ((fs.map Prod.fst).Nodup) && wfFields fs
termination_by structural j => j

/-- Well-formedness of every element of an array. -/
def wfList : List Json → Bool
  | [] => true
  | x :: xs => wfKeys x && wfList xs
termination_by structural l => l

/-- Well-formedness of every value of a field list. -/
def wfFields : List (String × Json) → Bool
  | [] => true
  | kv :: fs => wfKeys kv.2 && wfFields fs
termination_by structural l => l
end

/-- Escape of a single character inside a JSON string literal, following
JSON.stringify: quote and backslash are escaped, the common control
characters use their short escapes, other control characters use a unicode
escape, and everything else is passed through verbatim. -/
def escapeChar (c : Char) : String :=
  if c = '"' then "\\\""
  else if c = '\\' then "\\\\"
  else if c = '\x08' then "\\b"
  else if c = '\x09' then "\\t"
  else if c = '\x0a' then "\\n"
  else if c = '\x0c' then "\\f"
  else if c = '\x0d' then "\\r"
  else if c.toNat < 32 then
    "\\u00" ++ String.singleton ("0123456789abcdef".data.getD (c.toNat / 16) '0')
      ++ String.singleton ("0123456789abcdef".data.getD (c.toNat % 16) '0')
  else String.singleton c

/-- JSON string literal for s, double quotes included. -/
def jsonQuote (s : String) : String :=
  "\"" ++ String.join (s.data.map escapeChar) ++ "\""

mutual
/-- Model of JSON.stringify without indentation, as used on the canonicalized
objects inside configsAreEqual. -/
def stringify : Json → String
  | .null => "null"
  | .bool true => "true"
  | .bool false => "false"
  | .num n => toString n
  | .str s => jsonQuote s
  | .arr xs => "[" ++ stringifyList xs ++ "]"
  | .obj fs => "\x7b" ++ stringifyFields fs ++ "\x7d"
termination_by structural j => j

/-- Comma-separated serialization of array elements. -/
def stringifyList : List Json → String
  | [] => ""
  | [x] => stringify x
  | x :: y :: xs => stringify x ++ "," ++ stringifyList (y :: xs)
termination_by structural l => l

/-- Comma-separated serialization of object fields. -/
def stringifyFields : List (String × Json) → String
  | [] => ""
  | [kv] => jsonQuote kv.1 ++ ":" ++ stringify kv.2
  | kv :: kw :: fs => jsonQuote kv.1 ++ ":" ++ stringify kv.2 ++ "," ++ stringifyFields (kw :: fs)
termination_by structural l => l
end

/-- Structural induction principle for Json giving membership induction
hypotheses for the nested lists. -/
theorem Json.recMem {P : Json → Prop}
    (hnull : P .null) (hbool : ∀ b, P (.bool b)) (hnum : ∀ n, P (.num n))
    (hstr : ∀ s, P (.str s))
    (harr : ∀ xs, (∀ x ∈ xs, P x) → P (.arr xs))
    (hobj : ∀ fs, (∀ kv ∈ fs, P kv.2) → P (.obj fs)) : ∀ j, P j
  | .null => hnull
  | .bool b => hbool b
  | .num n => hnum n
  | .str s => hstr s
  | .arr xs => harr xs (fun x hx => Json.recMem hnull hbool hnum hstr harr hobj x)
  | .obj fs => hobj fs (fun kv hkv => Json.recMem hnull hbool hnum hstr harr hobj kv.2)
termination_by j => sizeOf j
decreasing_by
  · have := List.sizeOf_lt_of_mem hx
    simp only [Json.arr.sizeOf_spec]
    omega
  · have h1 := List.sizeOf_lt_of_mem hkv
    have h2 : sizeOf kv.2 < sizeOf kv := by
      obtain ⟨k, v⟩ := kv
      simp only [Prod.mk.sizeOf_spec]
      omega
    simp only [Json.obj.sizeOf_spec]
    omega

/-- UTF-8 encoding of one character, as Buffer.from(s) produces for the
hash input. -/
def utf8EncodeChar (c : Char) : List Nat :=
  let n := c.toNat
  if n < 128 then [n]
  else if n < 2048 then [192 + n / 64, 128 + n % 64]
  else if n < 65536 then [224 + n / 4096, 128 + (n / 64) % 64, 128 + n % 64]
  else [240 + n / 262144, 128 + (n / 4096) % 64, 128 + (n / 64) % 64, 128 + n % 64]

/-- UTF-8 byte sequence of a string. -/
def utf8Bytes (s : String) : List Nat :=
  s.data.foldr (fun c acc => utf8EncodeChar c ++ acc) []

/-- Addition of 32-bit words. -/
def add32 (a b : Nat) : Nat := (a + b) % 4294967296

/-- Bitwise complement of a 32-bit word. -/
def not32 (x : Nat) : Nat := 4294967295 - x

/-- Left rotation of a 32-bit word by n bits. -/
def rotl32 (x n : Nat) : Nat :=
  ((x * 2 ^ n) % 4294967296) + (x / 2 ^ (32 - n))

/-- Per-round additive constants of MD5 (floor of 2^32 times the absolute
sine of the round index plus one). -/
def md5K : List Nat :=
  [0xd76aa478, 0xe8c7b756, 0x242070db, 0xc1bdceee,
   0xf57c0faf, 0x4787c62a, 0xa8304613, 0xfd469501,
   0x698098d8, 0x8b44f7af, 0xffff5bb1, 0x895cd7be,
   0x6b901122, 0xfd987193, 0xa679438e, 0x49b40821,
   0xf61e2562, 0xc040b340, 0x265e5a51, 0xe9b6c7aa,
   0xd62f105d, 0x02441453, 0xd8a1e681, 0xe7d3fbc8,
   0x21e1cde6, 0xc33707d6, 0xf4d50d87, 0x455a14ed,
   0xa9e3e905, 0xfcefa3f8, 0x676f02d9, 0x8d2a4c8a,
   0xfffa3942, 0x8771f681, 0x6d9d6122, 0xfde5380c,
   0xa4beea44, 0x4bdecfa9, 0xf6bb4b60, 0xbebfbc70,
   0x289b7ec6, 0xeaa127fa, 0xd4ef3085, 0x04881d05,
   0xd9d4d039, 0xe6db99e5, 0x1fa27cf8, 0xc4ac5665,
   0xf4292244, 0x432aff97, 0xab9423a7, 0xfc93a039,
   0x655b59c3, 0x8f0ccc92, 0xffeff47d, 0x85845dd1,
   0x6fa87e4f, 0xfe2ce6e0, 0xa3014314, 0x4e0811a1,
   0xf7537e82, 0xbd3af235, 0x2ad7d2bb, 0xeb86d391]

/-- Per-round left-rotation amounts of MD5. -/
def md5S : List Nat := [7, 12, 17, 22, 5, 9, 14, 20, 4, 11, 16, 23, 6, 10, 15, 21]

/-- Padding of the input bytes: append the 1 bit, zero-fill to 56 modulo 64,
and append the bit length as a little-endian 64-bit quantity. -/
def md5Pad (bytes : List Nat) : List Nat :=
  let len := bytes.length
  let zeros := (120 - ((len + 1) % 64)) % 64
  let bitLen := (len * 8) % 18446744073709551616
  bytes ++ [128] ++ List.replicate zeros 0
    ++ ((List.range 8).map fun i => bitLen / 2 ^ (8 * i) % 256)

/-- Fuel-driven split of the padded message into 64-byte chunks. -/
def md5ChunksAux : Nat → List Nat → List (List Nat)
  | 0, _ => []
  | _, [] => []
  | fuel + 1, l => l.take 64 :: md5ChunksAux fuel (l.drop 64)

/-- Split of the padded message into 64-byte chunks. -/
def md5Chunks (l : List Nat) : List (List Nat) := md5ChunksAux l.length l

/-- Little-endian 32-bit word of index g of a chunk. -/
def md5Word (chunk : List Nat) (g : Nat) : Nat :=
  chunk.getD (4 * g) 0 + 256 * chunk.getD (4 * g + 1) 0
    + 65536 * chunk.getD (4 * g + 2) 0 + 16777216 * chunk.getD (4 * g + 3) 0

/-- One of the 64 MD5 rounds applied to the running state (a, b, c, d). -/
def md5Round (chunk : List Nat) (st : Nat × Nat × Nat × Nat) (i : Nat) :
    Nat × Nat × Nat × Nat :=
  let a := st.1
  let b := st.2.1
  let c := st.2.2.1
  let d := st.2.2.2
  let fg : Nat × Nat :=
    if i < 16 then ((b &&& c) ||| (not32 b &&& d), i)
    else if i < 32 then ((d &&& b) ||| (not32 d &&& c), (5 * i + 1) % 16)
    else if i < 48 then (b ^^^ c ^^^ d, (3 * i + 5) % 16)
    else (c ^^^ (b ||| not32 d), (7 * i) % 16)
  let rot := md5S.getD ((i / 16) * 4 + i % 4) 0
  let sum := (fg.1 + a + md5K.getD i 0 + md5Word chunk fg.2) % 4294967296
  (d, add32 b (rotl32 sum rot), b, c)

/-- Digest state update for one 64-byte chunk. -/
def md5Chunk (st : Nat × Nat × Nat × Nat) (chunk : List Nat) :
    Nat × Nat × Nat × Nat :=
  let r := (List.range 64).foldl (md5Round chunk) st
  (add32 st.1 r.1, add32 st.2.1 r.2.1, add32 st.2.2.1 r.2.2.1, add32 st.2.2.2 r.2.2.2)

/-- Initial MD5 state. -/
def md5Init : Nat × Nat × Nat × Nat := (0x67452301, 0xefcdab89, 0x98badcfe, 0x10325476)

/-- Hexadecimal byte, two lowercase digits. -/
def hexByte (n : Nat) : String :=
  String.singleton ("0123456789abcdef".data.getD (n / 16 % 16) '0')
    ++ String.singleton ("0123456789abcdef".data.getD (n % 16) '0')

/-- Little-endian hexadecimal rendering of a 32-bit word. -/
def hexWordLE (w : Nat) : String :=
  hexByte (w % 256) ++ hexByte (w / 256 % 256) ++ hexByte (w / 65536 % 256)
    ++ hexByte (w / 16777216 % 256)

/-- Model of calculateMd5 of config-sync: the lowercase hexadecimal MD5
digest of the UTF-8 bytes of the content, as crypto.createHash produces. -/
def calculateMd5 (content : String) : String :=
  let st := (md5Chunks (md5Pad (utf8Bytes content))).foldl md5Chunk md5Init
  hexWordLE st.1 ++ hexWordLE st.2.1 ++ hexWordLE st.2.2.1 ++ hexWordLE st.2.2.2

/-- Terminal result of one run of the reconciliation loop, as described by
the specification: the configuration was already up to date, it was updated,
or the attempt budget was exhausted. -/
inductive SyncOutcome where
  | upToDate
  | updated
  | exhaustedRetries
deriving DecidableEq

/-- Errors thrown out of the sync functions: a filesystem failure during the
atomic replace (rethrown by writeLocalConfig), the retry-bound error thrown
by the second config-sync variant, and the TypeError raised by that variant
when the response carries no nested worker.configs object. -/
inductive SyncErr where
  | writeError
  | syncFailed
  | typeError
deriving DecidableEq

/-- State of the local configuration file: missing, present but not valid
JSON, or a parsed JSON document. -/
inductive FileState where
  | absent
  | malformed
  | json (content : Json)

/-- Worker payload of the API response.  The configs field is an Option so
that an absent or null configs property can be distinguished; the id,
identity and timestamp fields of the TypeScript interface never influence
the sync logic and are omitted. -/
structure WorkerData where
  configs : Option Json

/-- Response of the distribution platform.  rootFields models any additional
top-level properties of the response body (the alternate response shape that
carries the configuration at the root); the code never reads them, which is
exactly what claim C6 is about. -/
structure ApiResponse where
  success : Bool
  error : Option String
  worker : Option WorkerData
  rootFields : List (String × Json)

/-- Model of readLocalConfig: a missing file and an unparseable file both
yield null (the read is wrapped in a try/catch returning null). -/
def readLocalConfig : FileState → Option Json
  | .json c => some c
  | _ => none

/-- Model of writeLocalConfig: write a temp file and rename it over the
target.  The writeOk flag is the fault model for the filesystem: when the
write or rename throws, writeLocalConfig logs and rethrows. -/
def writeLocalConfig (writeOk : Bool) (config : Json) : Except SyncErr FileState :=
  if writeOk then .ok (.json config) else .error .writeError

/-- Model of removeIgnoredFields: rest-destructuring away the top-level meta
and wizard properties.  On a plain object this filters the two keys out; on
an array or a string, JavaScript rest-destructuring collects the index-keyed
own properties into a fresh object; other primitives have no own properties.
A null argument would throw in JavaScript, but both call sites null-check
first; the model returns the empty object there. -/
def removeIgnoredFields : Json → Json
  | .obj fs => .obj (fs.filter fun kv => !(kv.1 == "meta") && !(kv.1 == "wizard"))
  | .arr xs => .obj (xs.enum.map fun p => (toString p.1, p.2))
  | .str s => .obj (s.data.enum.map fun p => (toString p.1, .str (String.singleton p.2)))
  | _ => .obj []

/-- Model of configsAreEqual of the primary config-sync variant: a null
local configuration is never equal; otherwise both objects are stripped of
the ignored fields, canonicalized by recursive key sorting, serialized and
compared by MD5 digest. -/
def configsAreEqual (localConfig : Option Json) (remoteConfig : Json) : Bool :=
  match localConfig with
  | none => false
  | some lc =>
    calculateMd5 (stringify (sortObjectKeys (removeIgnoredFields lc)))
      == calculateMd5 (stringify (sortObjectKeys (removeIgnoredFields remoteConfig)))

/-- Observable result of one run of the primary startConfigSync: the
outcome, the final state of the local configuration file, whether the
gateway restart side effect fired, and how often the onSyncComplete and
onSyncError callbacks ran. -/
structure SyncResult where
  outcome : SyncOutcome
  file : FileState
  restarted : Bool
  completeCalls : Nat
  errorCalls : Nat

/-- Polling loop of the primary startConfigSync.  The fuel is the remaining
retry budget (the loop runs while retryCount is below maxRetries); the list
is the oracle of fetch results, one entry per attempt, where none stands for
a network error or a non-ok transport status and a missing entry behaves
like a network failure.  Each retry branch of the source (network failure,
success false, missing worker or configs, falsy configs, empty configs)
sleeps and continues; the two terminal branches return, and a write failure
propagates out as an exception. -/
def syncLoop (localConfig : Option Json) (writeOk restartAfterSync : Bool)
    (file : FileState) : Nat → List (Option ApiResponse) → Except SyncErr SyncResult
  | 0, _ => .ok ⟨.exhaustedRetries, file, false, 0, 1⟩
  | n + 1, responses =>
    match responses with
    | [] => syncLoop localConfig writeOk restartAfterSync file n []
    | response :: rest =>
      match response with
      | none => syncLoop localConfig writeOk restartAfterSync file n rest
      | some resp =>
        if resp.success = false then
          syncLoop localConfig writeOk restartAfterSync file n rest
        else
          match resp.worker with
          | none => syncLoop localConfig writeOk restartAfterSync file n rest
          | some w =>
            match w.configs with
            | none => syncLoop localConfig writeOk restartAfterSync file n rest
            | some configData =>
              if jsFalsy configData then
                syncLoop localConfig writeOk restartAfterSync file n rest
              else if objKeys configData = [] then
                syncLoop localConfig writeOk restartAfterSync file n rest
              else if configsAreEqual localConfig configData then
                .ok ⟨.upToDate, file, false, 1, 0⟩
              else
                match writeLocalConfig writeOk configData with
                | .error e => .error e
                | .ok newFile => .ok ⟨.updated, newFile, restartAfterSync, 1, 0⟩

/-- Model of the primary startConfigSync: read the local configuration once,
then poll up to maxRetries times.  Exhaustion reports through onSyncError
and returns normally. -/
def startConfigSync (file : FileState) (writeOk restartAfterSync : Bool)
    (responses : List (Option ApiResponse)) (maxRetries : Nat) :
    Except SyncErr SyncResult :=
  syncLoop (readLocalConfig file) writeOk restartAfterSync file maxRetries responses

/-- Polling loop of the second config-sync variant, whose comparison and
write steps are commented out.  When the retry bound is exceeded it invokes
onSyncError and then throws; when a success response arrives it marks the
sync complete and dereferences worker.configs without a null check, so a
response without a worker object (or without configs, or with null configs)
raises a TypeError; otherwise the loop exits without comparing or writing. -/
def syncLoopV2 : Nat → List (Option ApiResponse) → Except SyncErr Unit
  | 0, _ => .error .syncFailed
  | n + 1, responses =>
    match responses with
    | [] => syncLoopV2 n []
    | response :: rest =>
      match response with
      | none => syncLoopV2 n rest
      | some resp =>
        if resp.success = false then syncLoopV2 n rest
        else
          match resp.worker with
          | none => .error .typeError
          | some w =>
            match w.configs with
            | none => .error .typeError
            | some .null => .error .typeError
            | some _ => .ok ()

/-- Model of the second startConfigSync variant, for a set (truthy)
maxRetries bound. -/
def startConfigSyncV2 (responses : List (Option ApiResponse)) (maxRetries : Nat) :
    Except SyncErr Unit :=
  syncLoopV2 maxRetries responses

/-- Characterization of the fetch results that take one of the retry
branches of the primary loop: network failure, success false, missing worker
or configs, falsy configs, or an empty configs object. -/
def retryable : Option ApiResponse → Bool
  | none => true
  | some resp =>
    !resp.success ||
      match resp.worker with
      | none => true
      | some w =>
        match w.configs with
        | none => true
        | some c => jsFalsy c || decide (objKeys c = [])

/-- Lifecycle status of one underlying WebSocket object: handshake in
progress, connection established, closing handshake started, or fully
closed. -/
inductive SockStatus where
  | connecting
  | opened
  | closing
  | closed
deriving DecidableEq, BEq

/-- Raw data of one socket message event: either bytes that JSON.parse
rejects, or the parsed JSON event. -/
inductive RawMsg where
  | malformed
  | frame (event : Json)

/-- State of one MspbotsWSClient instance together with the observable
activity of its monitorMspBotsProvider listener.  The socks list records
every WebSocket object ever constructed by connect, in creation order; ws is
the index held by this.ws; the two timer flags state whether a reconnect
timeout or a ping interval is armed; fwd lists the frames handed to
handleMspBotsMessage in order; sent lists the frames written to the
underlying socket; pending counts the handler invocations that have started
and not yet finished (the listener is async and the emitter does not await
it). -/
structure MspbotsWSClient where
  socks : List SockStatus
  ws : Option Nat
  reconnectTimer : Bool
  pingTimer : Bool
  isClosed : Bool
  fwd : List Json
  sent : List Json
  pending : Nat

/-- Freshly constructed client: no socket yet, no timers, not closed. -/
def initClient : MspbotsWSClient := ⟨[], none, false, false, false, [], [], 0⟩

/-- Events driving the client: the public connect call, the reconnect
timeout firing (which calls connect), socket open/message/error/close
events, the ping interval firing, the public close call, and completion of
one async message-handler invocation.  The ctorThrows flag selects the catch
branch of connect in which the WebSocket constructor throws. -/
inductive WSEv where
  | connectCall (ctorThrows : Bool)
  | reconnectFire (ctorThrows : Bool)
  | sockOpen (i : Nat)
  | sockMsg (i : Nat) (data : RawMsg)
  | sockErr (i : Nat)
  | sockClose (i : Nat)
  | pingFire
  | stopCall
  | handlerDone

/-- Model of scheduleReconnect: bail out when closed, otherwise clear both
timers and arm the 5 second reconnect timeout. -/
def MspbotsWSClient.scheduleReconnect (s : MspbotsWSClient) : MspbotsWSClient :=
  if s.isClosed then s
  else { s with reconnectTimer := true, pingTimer := false }

/-- Model of connect: bail out when closed; otherwise construct a new
WebSocket and store it in this.ws, or run the catch branch (which schedules
a reconnect) when the constructor throws.  Note that connect does not guard
against an existing live socket. -/
def MspbotsWSClient.connect (s : MspbotsWSClient) (ctorThrows : Bool) : MspbotsWSClient :=
  if s.isClosed then s
  else if ctorThrows then s.scheduleReconnect
  else { s with socks := s.socks ++ [.connecting], ws := some s.socks.length }

/-- Model of close: set the terminal flag, clear both timers, close the
referenced socket if any (beginning its closing handshake unless it is
already fully closed) and null the reference. -/
def MspbotsWSClient.close (s : MspbotsWSClient) : MspbotsWSClient :=
  let socks :=
    match s.ws with
    | none => s.socks
    | some i =>
      if s.socks.getD i .closed = .closed then s.socks else s.socks.set i .closing
  { s with isClosed := true, reconnectTimer := false, pingTimer := false,
           socks := socks, ws := none }

/-- Type discriminator of a frame, when present and a string. -/
def frameType : Json → Option String
  | .obj fs =>
    match (fs.find? fun kv => kv.1 == "type").map Prod.snd with
    | some (.str s) => some s
    | _ => none
  | _ => none

/-- Heartbeat request frame test. -/
def isPingFrame (j : Json) : Bool := frameType j == some "ping"

/-- Heartbeat reply frame sent by the client. -/
def pongFrame : Json := .obj [("type", .str "pong")]

/-- Heartbeat frame sent by the ping interval. -/
def pingFrame : Json := .obj [("type", .str "ping")]

/-- Model of one socket message event: a parse failure is caught and
dropped; a null event is dropped because reading event.type throws inside
the same try block; a ping is answered with a pong on the currently
referenced socket (optional chaining, and the send is effective only on an
open socket); anything else is emitted to the monitor listener, which drops
falsy payloads and connection control frames and otherwise starts an async
handleMspBotsMessage invocation. -/
def MspbotsWSClient.handleMessage (s : MspbotsWSClient) (data : RawMsg) : MspbotsWSClient :=
  match data with
  | .malformed => s
  | .frame event =>
    if isNullJson event then s
    else if isPingFrame event then
      match s.ws with
      | some i =>
        if s.socks.getD i .closed = .opened then { s with sent := s.sent ++ [pongFrame] }
        else s
      | none => s
    else if jsTruthy event && !(frameType event == some "connection") then
      { s with fwd := s.fwd ++ [event], pending := s.pending + 1 }
    else s

/-- Model of sendPing: send a ping frame when this.ws exists and is open. -/
def MspbotsWSClient.sendPing (s : MspbotsWSClient) : MspbotsWSClient :=
  match s.ws with
  | some i =>
    if s.socks.getD i .closed = .opened then { s with sent := s.sent ++ [pingFrame] }
    else s
  | none => s

/-- Transition function of the client: the effect of each event exactly as
the attached handlers run it.  The open handler starts the 30 second ping
interval; the close handler schedules a reconnect; the error handlers only
log. -/
def MspbotsWSClient.applyEv (s : MspbotsWSClient) : WSEv → MspbotsWSClient
  | .connectCall t => s.connect t
  | .reconnectFire t => MspbotsWSClient.connect { s with reconnectTimer := false } t
  | .sockOpen i => { s with socks := s.socks.set i .opened, pingTimer := true }
  | .sockMsg _ d => s.handleMessage d
  | .sockErr _ => s
  | .sockClose i => MspbotsWSClient.scheduleReconnect { s with socks := s.socks.set i .closed }
  | .pingFire => s.sendPing
  | .stopCall => s.close
  | .handlerDone => { s with pending := s.pending - 1 }

/-- Environment validity of an event in a state: users may call connect and
close at any time; a timer fires only while armed; a socket fires open only
while connecting, delivers messages while open or closing (data already in
flight is still parsed during the closing handshake), fires error and close
only while not fully closed; a handler completion requires a running
handler. -/
def MspbotsWSClient.evOk (s : MspbotsWSClient) : WSEv → Bool
  | .connectCall _ => true
  | .reconnectFire _ => s.reconnectTimer
  | .sockOpen i => decide (s.socks.getD i .closed = .connecting)
  | .sockMsg i _ =>
    decide (s.socks.getD i .closed = .opened) || decide (s.socks.getD i .closed = .closing)
  | .sockErr i => !decide (s.socks.getD i .closed = .closed)
  | .sockClose i => !decide (s.socks.getD i .closed = .closed)
  | .pingFire => s.pingTimer
  | .stopCall => true
  | .handlerDone => decide (0 < s.pending)

/-- Fold of the transition function over an event trace. -/
def runTrace : MspbotsWSClient → List WSEv → MspbotsWSClient
  | s, [] => s
  | s, e :: es => runTrace (s.applyEv e) es

/-- Validity of a whole trace: every event is valid in the state it meets. -/
def validTrace : MspbotsWSClient → List WSEv → Bool
  | _, [] => true
  | s, e :: es => s.evOk e && validTrace (s.applyEv e) es

/-- Number of sockets that are not fully closed. -/
def MspbotsWSClient.liveCount (s : MspbotsWSClient) : Nat :=
  s.socks.countP fun st => !decide (st = SockStatus.closed)

/-- Number of sockets whose connection is established. -/
def MspbotsWSClient.openCount (s : MspbotsWSClient) : Nat :=
  s.socks.countP fun st => decide (st = SockStatus.opened)

/-- Invariant of the client under its intended single connect call: at most
one socket is live, an armed reconnect timer implies every socket is fully
closed, and the closed flag implies the reconnect timer is disarmed. -/
def wsInv (s : MspbotsWSClient) : Bool :=
  decide (s.liveCount ≤ 1) && (!s.reconnectTimer || decide (s.liveCount = 0))
    && (!s.isClosed || !s.reconnectTimer)

/-- Test for the public connect call event. -/
def isConnectCall : WSEv → Bool
  | .connectCall _ => true
  | _ => false

/-- Quiescence after close has returned: the terminal flag is set, no
reconnect timeout is armed and no socket is referenced. -/
def afterStop (s : MspbotsWSClient) : Bool :=
  s.isClosed && !s.reconnectTimer && decide (s.ws = none)

/-- Frame forwarded to the message handler by one event, if any: a parsed,
non-null, non-ping, truthy frame that is not a connection control frame. -/
def fwdFrame : WSEv → Option Json
  | .sockMsg _ (.frame event) =>
    if !(isNullJson event) && !(isPingFrame event) && jsTruthy event
        && !(frameType event == some "connection") then
      some event
    else none
  | _ => none

mutual
/-- Relation between two JSON values that agree up to a permutation of the
key order of their objects, at any nesting depth.  Arrays keep their element
order; an object is first related field by field (same keys, related values)
and the resulting field list is then permuted. -/
inductive KeyPerm : Json → Json → Prop where
  | null : KeyPerm .null .null
  | bool (b : Bool) : KeyPerm (.bool b) (.bool b)
  | num (n : Int) : KeyPerm (.num n) (.num n)
  | str (s : String) : KeyPerm (.str s) (.str s)
  | arr {xs ys : List Json} : KeyPermList xs ys → KeyPerm (.arr xs) (.arr ys)
  | obj {fs gs hs : List (String × Json)} :
      KeyPermFields fs gs → gs.Perm hs → KeyPerm (.obj fs) (.obj hs)

/-- Pointwise key permutation of array elements. -/
inductive KeyPermList : List Json → List Json → Prop where
  | nil : KeyPermList [] []
  | cons {x y : Json} {xs ys : List Json} :
      KeyPerm x y → KeyPermList xs ys → KeyPermList (x :: xs) (y :: ys)

/-- Pointwise key permutation of field values under identical keys. -/
inductive KeyPermFields : List (String × Json) → List (String × Json) → Prop where
  | nil : KeyPermFields [] []
  | cons (k : String) {v w : Json} {fs gs : List (String × Json)} :
      KeyPerm v w → KeyPermFields fs gs → KeyPermFields ((k, v) :: fs) ((k, w) :: gs)
end

/-- Value map applied by sortFields to every field. -/
def sortField (kv : String × Json) : String × Json := (kv.1, sortObjectKeys kv.2)

theorem sortFields_eq_map : ∀ fs, sortFields fs = fs.map sortField
  | [] => rfl
  | kv :: fs => by simp [sortFields, sortField, sortFields_eq_map fs]

theorem keys_map_sortField : ∀ fs : List (String × Json),
    (fs.map sortField).map Prod.fst = fs.map Prod.fst
  | [] => rfl
  | kv :: fs => by simp [sortField, keys_map_sortField fs]

theorem keys_sortFields (fs : List (String × Json)) :
    (sortFields fs).map Prod.fst = fs.map Prod.fst := by
  rw [sortFields_eq_map, keys_map_sortField]

theorem map_self_of {α : Type} (f : α → α) :
    ∀ l : List α, (∀ a ∈ l, f a = a) → l.map f = l
  | [], _ => rfl
  | a :: l, h => by
    rw [List.map_cons, h a (List.mem_cons_self a l),
      map_self_of f l fun b hb => h b (List.mem_cons_of_mem a hb)]

/-- Sorted field lists with pairwise distinct keys are strictly sorted. -/
theorem sorted_keyLt_of_sorted_nodup {l : List (String × Json)}
    (hs : l.Sorted keyLe) (hnd : (l.map Prod.fst).Nodup) : l.Sorted keyLt := by
  have hne : l.Pairwise fun a b => a.1 ≠ b.1 := List.pairwise_map.mp hnd
  exact (hs.and hne).imp fun h => ⟨h.1, h.2⟩

/-- Key sorting of permuted field lists with distinct keys agrees. -/
theorem insertionSort_eq_of_perm {A B : List (String × Json)} (hAB : A.Perm B)
    (hnd : (A.map Prod.fst).Nodup) :
    List.insertionSort keyLe A = List.insertionSort keyLe B := by
  have hndB : (B.map Prod.fst).Nodup := ((hAB.map Prod.fst).nodup_iff).mp hnd
  have hndA2 : ((List.insertionSort keyLe A).map Prod.fst).Nodup :=
    (((List.perm_insertionSort keyLe A).map Prod.fst).nodup_iff).mpr hnd
  have hndB2 : ((List.insertionSort keyLe B).map Prod.fst).Nodup :=
    (((List.perm_insertionSort keyLe B).map Prod.fst).nodup_iff).mpr hndB
  refine List.eq_of_perm_of_sorted (r := keyLt) ?_ ?_ ?_
  · exact (List.perm_insertionSort keyLe A).trans
      (hAB.trans (List.perm_insertionSort keyLe B).symm)
  · exact sorted_keyLt_of_sorted_nodup (List.sorted_insertionSort keyLe A) hndA2
  · exact sorted_keyLt_of_sorted_nodup (List.sorted_insertionSort keyLe B) hndB2

theorem wfFields_iff : ∀ fs : List (String × Json),
    wfFields fs = true ↔ ∀ kv ∈ fs, wfKeys kv.2 = true
  | [] => by simp [wfFields]
  | kv :: fs => by
    simp [wfFields, Bool.and_eq_true, wfFields_iff fs]

theorem wfList_iff : ∀ xs : List Json,
    wfList xs = true ↔ ∀ x ∈ xs, wfKeys x = true
  | [] => by simp [wfList]
  | x :: xs => by
    simp [wfList, Bool.and_eq_true, wfList_iff xs]

theorem wfKeys_obj {fs : List (String × Json)} :
    wfKeys (.obj fs) = true ↔ (fs.map Prod.fst).Nodup ∧ ∀ kv ∈ fs, wfKeys kv.2 = true := by
  simp [wfKeys, Bool.and_eq_true, wfFields_iff]

theorem wfKeys_arr {xs : List Json} :
    wfKeys (.arr xs) = true ↔ ∀ x ∈ xs, wfKeys x = true := by
  simp [wfKeys, wfList_iff]

/-- Canonicalization is idempotent: sorting an already sorted value changes
nothing. -/
theorem sortObjectKeys_idem : ∀ j, sortObjectKeys (sortObjectKeys j) = sortObjectKeys j := by
  intro j
  induction j using Json.recMem with
  | hnull => rfl
  | hbool b => rfl
  | hnum n => rfl
  | hstr s => rfl
  | harr xs ih =>
    simp only [sortObjectKeys]
    congr 1
    have aux : ∀ ys : List Json, (∀ x ∈ ys, sortObjectKeys (sortObjectKeys x) = sortObjectKeys x) →
        sortList (sortList ys) = sortList ys := by
      intro ys
      induction ys with
      | nil => intro _; rfl
      | cons y ys ihl =>
        intro h
        simp only [sortList]
        rw [h y (List.mem_cons_self y ys), ihl fun x hx => h x (List.mem_cons_of_mem y hx)]
    exact aux xs ih
  | hobj fs ih =>
    simp only [sortObjectKeys]
    congr 1
    have hmap : sortFields (List.insertionSort keyLe (sortFields fs))
        = List.insertionSort keyLe (sortFields fs) := by
      rw [sortFields_eq_map]
      apply map_self_of
      intro y hy
      have hyS : y ∈ sortFields fs :=
        (List.perm_insertionSort keyLe (sortFields fs)).subset hy
      rw [sortFields_eq_map] at hyS
      obtain ⟨kv, hkv, rfl⟩ := List.mem_map.mp hyS
      show (kv.1, sortObjectKeys (sortObjectKeys kv.2)) = (kv.1, sortObjectKeys kv.2)
      rw [ih kv hkv]
    rw [hmap]
    exact List.Sorted.insertionSort_eq (List.sorted_insertionSort keyLe (sortFields fs))

theorem keyPermFields_keys : ∀ {fs gs : List (String × Json)},
    KeyPermFields fs gs → fs.map Prod.fst = gs.map Prod.fst
  | _, _, .nil => rfl
  | _, _, .cons k hvw htl => by
    simp only [List.map_cons]
    rw [keyPermFields_keys htl]

theorem sortList_congr : ∀ {xs ys : List Json}, KeyPermList xs ys →
    (∀ x ∈ xs, wfKeys x = true → ∀ y, KeyPerm x y → sortObjectKeys x = sortObjectKeys y) →
    (∀ x ∈ xs, wfKeys x = true) → sortList xs = sortList ys
  | _, _, .nil, _, _ => rfl
  | x :: xs, y :: ys, .cons hxy htl, hIH, hwf => by
    simp only [sortList]
    rw [hIH x (List.mem_cons_self x xs) (hwf x (List.mem_cons_self x xs)) y hxy,
      sortList_congr htl (fun z hz => hIH z (List.mem_cons_of_mem x hz))
        fun z hz => hwf z (List.mem_cons_of_mem x hz)]

theorem sortFields_congr : ∀ {fs gs : List (String × Json)}, KeyPermFields fs gs →
    (∀ kv ∈ fs, wfKeys kv.2 = true → ∀ y, KeyPerm kv.2 y → sortObjectKeys kv.2 = sortObjectKeys y) →
    (∀ kv ∈ fs, wfKeys kv.2 = true) → sortFields fs = sortFields gs
  | _, _, .nil, _, _ => rfl
  | _, _, @KeyPermFields.cons k v w fs gs hvw htl, hIH, hwf => by
    simp only [sortFields]
    rw [hIH (k, v) (List.mem_cons_self (k, v) fs) (hwf (k, v) (List.mem_cons_self (k, v) fs)) w hvw,
      sortFields_congr htl (fun z hz => hIH z (List.mem_cons_of_mem (k, v) hz))
        fun z hz => hwf z (List.mem_cons_of_mem (k, v) hz)]

/-- Canonicalization is order-independent: two well-formed values that agree
up to key order canonicalize identically. -/
theorem sortObjectKeys_eq_of_keyPerm :
    ∀ x, wfKeys x = true → ∀ y, KeyPerm x y → sortObjectKeys x = sortObjectKeys y := by
  intro x
  induction x using Json.recMem with
  | hnull => intro _ y h; cases h; rfl
  | hbool b => intro _ y h; cases h; rfl
  | hnum n => intro _ y h; cases h; rfl
  | hstr s => intro _ y h; cases h; rfl
  | harr xs ih =>
    intro hwf y h
    cases h with
    | arr hl =>
      simp only [sortObjectKeys]
      congr 1
      exact sortList_congr hl ih (wfKeys_arr.mp hwf)
  | hobj fs ih =>
    intro hwf y h
    cases h with
    | obj hpf hperm =>
      obtain ⟨hnd, hwfv⟩ := wfKeys_obj.mp hwf
      rename_i gs hs
      simp only [sortObjectKeys]
      congr 1
      have h1 : sortFields fs = sortFields gs := sortFields_congr hpf ih hwfv
      have hkeys : (sortFields gs).map Prod.fst = fs.map Prod.fst := by
        rw [keys_sortFields, keyPermFields_keys hpf]
      have h2 : (sortFields gs).Perm (sortFields hs) := by
        rw [sortFields_eq_map, sortFields_eq_map]
        exact hperm.map sortField
      rw [h1]
      exact insertionSort_eq_of_perm h2 (hkeys ▸ hnd)

/-- Filter retained by removeIgnoredFields on a plain object: every field
whose key is neither meta nor wizard. -/
def notIgnored (kv : String × Json) : Bool := !(kv.1 == "meta") && !(kv.1 == "wizard")

theorem removeIgnored_obj (fs : List (String × Json)) :
    removeIgnoredFields (.obj fs) = .obj (fs.filter notIgnored) := rfl

theorem map_sortField_filter : ∀ fs : List (String × Json),
    (fs.filter notIgnored).map sortField = (fs.map sortField).filter notIgnored
  | [] => rfl
  | kv :: fs => by
    by_cases h : notIgnored kv = true
    · have h2 : notIgnored (sortField kv) = true := h
      simp only [List.filter_cons, List.map_cons, h, h2, if_pos]
      simp [map_sortField_filter fs]
    · have h' : notIgnored kv = false := by revert h; cases notIgnored kv <;> simp
      have h2 : notIgnored (sortField kv) = false := h'
      simp only [List.filter_cons, List.map_cons, h', h2]
      simp [map_sortField_filter fs]

/-- Key sorting commutes with the key-based filter on field lists with
distinct keys. -/
theorem insertionSort_filter_comm (A : List (String × Json))
    (hnd : (A.map Prod.fst).Nodup) :
    List.insertionSort keyLe (A.filter notIgnored)
      = (List.insertionSort keyLe A).filter notIgnored := by
  have hndF : ((A.filter notIgnored).map Prod.fst).Nodup :=
    ((List.filter_sublist A).map Prod.fst).nodup hnd
  have hndL : ((List.insertionSort keyLe (A.filter notIgnored)).map Prod.fst).Nodup :=
    (((List.perm_insertionSort keyLe (A.filter notIgnored)).map Prod.fst).nodup_iff).mpr hndF
  have hndA2 : ((List.insertionSort keyLe A).map Prod.fst).Nodup :=
    (((List.perm_insertionSort keyLe A).map Prod.fst).nodup_iff).mpr hnd
  have hndR : (((List.insertionSort keyLe A).filter notIgnored).map Prod.fst).Nodup :=
    ((List.filter_sublist _).map Prod.fst).nodup hndA2
  refine List.eq_of_perm_of_sorted (r := keyLt) ?_ ?_ ?_
  · exact (List.perm_insertionSort keyLe (A.filter notIgnored)).trans
      ((List.perm_insertionSort keyLe A).filter notIgnored).symm
  · exact sorted_keyLt_of_sorted_nodup (List.sorted_insertionSort keyLe _) hndL
  · exact List.Pairwise.filter notIgnored
      (sorted_keyLt_of_sorted_nodup (List.sorted_insertionSort keyLe A) hndA2)

/-- On an object with distinct keys, dropping the ignored fields commutes
with canonicalization. -/
theorem removeIgnored_sort_comm (fs : List (String × Json))
    (hnd : (fs.map Prod.fst).Nodup) :
    sortObjectKeys (removeIgnoredFields (.obj fs))
      = removeIgnoredFields (sortObjectKeys (.obj fs)) := by
  rw [removeIgnored_obj]
  simp only [sortObjectKeys]
  rw [removeIgnored_obj]
  congr 1
  rw [sortFields_eq_map, sortFields_eq_map, map_sortField_filter]
  exact insertionSort_filter_comm (fs.map sortField) (keys_map_sortField fs ▸ hnd)

/-- C2: canonicalization (sortObjectKeys) is idempotent, and for every pair
of well-formed JSON values that agree up to a permutation of object key
order at any nesting depth, the MD5 hash of the JSON serialization of the
canonicalized value is the same. -/
theorem c2_canonicalization :
    (∀ j, sortObjectKeys (sortObjectKeys j) = sortObjectKeys j) ∧
    (∀ x y, wfKeys x = true → KeyPerm x y →
      calculateMd5 (stringify (sortObjectKeys x))
        = calculateMd5 (stringify (sortObjectKeys y))) :=
  ⟨sortObjectKeys_idem, fun x y hw hk => by
    rw [sortObjectKeys_eq_of_keyPerm x hw y hk]⟩

/-- Witness for C2 at a nested object and a key permutation of it at both
depths. -/
theorem c2_witness :
    wfKeys (Json.obj [("b", Json.obj [("d", Json.num 4), ("c", Json.num 3)]),
        ("a", Json.num 1)]) = true ∧
    calculateMd5 (stringify (sortObjectKeys (Json.obj
        [("b", Json.obj [("d", Json.num 4), ("c", Json.num 3)]), ("a", Json.num 1)])))
      = calculateMd5 (stringify (sortObjectKeys (Json.obj
        [("a", Json.num 1), ("b", Json.obj [("c", Json.num 3), ("d", Json.num 4)])]))) :=
  ⟨by decide, c2_canonicalization.2 _ _ (by decide)
    (KeyPerm.obj
      (KeyPermFields.cons "b"
        (KeyPerm.obj
          (KeyPermFields.cons "d" (KeyPerm.num 4)
            (KeyPermFields.cons "c" (KeyPerm.num 3) KeyPermFields.nil))
          (List.Perm.swap ("c", Json.num 3) ("d", Json.num 4) []))
        (KeyPermFields.cons "a" (KeyPerm.num 1) KeyPermFields.nil))
      (List.Perm.swap ("a", Json.num 1)
        ("b", Json.obj [("c", Json.num 3), ("d", Json.num 4)]) []))⟩

/-- Reduction of one loop iteration on a well-formed nested payload: the
attempt either ends with the up-to-date outcome or writes. -/
theorem syncLoop_firstValid (lc : Option Json) (wOk rst : Bool) (file : FileState)
    (err : Option String) (root : List (String × Json)) (c : Json)
    (rest : List (Option ApiResponse)) (n : Nat)
    (hfalsy : jsFalsy c = false) (hne : objKeys c ≠ []) :
    syncLoop lc wOk rst file (n + 1) (some ⟨true, err, some ⟨some c⟩, root⟩ :: rest)
      = if configsAreEqual lc c then Except.ok ⟨.upToDate, file, false, 1, 0⟩
        else
          match writeLocalConfig wOk c with
          | .error e => .error e
          | .ok newFile => .ok ⟨.updated, newFile, rst, 1, 0⟩ := by
  simp only [syncLoop]
  simp [hfalsy, hne]

/-- C1 (amended): when the local configuration object and a non-empty remote
payload are equal after canonicalization, the first successful delivery of
that payload ends the run with the UpToDate outcome, the local file is not
written and the restart side effect does not fire.  The amendment restricts
the remote payload to carry at least one key, because the code treats an
empty configs object as an invalid payload and retries instead (see the
counterexample). -/
theorem c1_canonEqual_upToDate (lfs rfs : List (String × Json))
    (rest : List (Option ApiResponse)) (n : Nat) (writeOk restartAfterSync : Bool)
    (hl : (lfs.map Prod.fst).Nodup) (hr : (rfs.map Prod.fst).Nodup)
    (heq : sortObjectKeys (.obj lfs) = sortObjectKeys (.obj rfs))
    (hne : objKeys (Json.obj rfs) ≠ []) :
    startConfigSync (.json (.obj lfs)) writeOk restartAfterSync
        (some ⟨true, none, some ⟨some (.obj rfs)⟩, []⟩ :: rest) (n + 1)
      = .ok ⟨.upToDate, .json (.obj lfs), false, 1, 0⟩ := by
  have hceq : configsAreEqual (some (.obj lfs)) (.obj rfs) = true := by
    show (calculateMd5 (stringify (sortObjectKeys (removeIgnoredFields (Json.obj lfs))))
      == calculateMd5 (stringify (sortObjectKeys (removeIgnoredFields (Json.obj rfs))))) = true
    rw [removeIgnored_sort_comm lfs hl, removeIgnored_sort_comm rfs hr, heq]
    exact beq_self_eq_true _
  unfold startConfigSync
  simp only [readLocalConfig]
  rw [syncLoop_firstValid (some (Json.obj lfs)) writeOk restartAfterSync
    (FileState.json (Json.obj lfs)) none [] (Json.obj rfs) rest n rfl hne, if_pos hceq]

/-- Counterexample to C1 as stated: the empty local object and the empty
remote object are equal after canonicalization, yet the run returns
ExhaustedRetries rather than UpToDate, because an empty configs payload is
treated as invalid and retried. -/
theorem c1_counterexample :
    sortObjectKeys (Json.obj []) = sortObjectKeys (Json.obj []) ∧
    startConfigSync (.json (.obj [])) true true
        [some ⟨true, none, some ⟨some (.obj [])⟩, []⟩] 1
      = .ok ⟨.exhaustedRetries, .json (.obj []), false, 0, 1⟩ ∧
    SyncOutcome.exhaustedRetries ≠ SyncOutcome.upToDate :=
  ⟨rfl, rfl, by decide⟩

/-- Witness for C1 on the specified scenario: the local file holds the keys
b, a and the remote delivers a, b. -/
theorem c1_witness :
    (([("b", Json.num 2), ("a", Json.num 1)] : List (String × Json)).map Prod.fst).Nodup ∧
    (([("a", Json.num 1), ("b", Json.num 2)] : List (String × Json)).map Prod.fst).Nodup ∧
    sortObjectKeys (Json.obj [("b", Json.num 2), ("a", Json.num 1)])
      = sortObjectKeys (Json.obj [("a", Json.num 1), ("b", Json.num 2)]) ∧
    objKeys (Json.obj [("a", Json.num 1), ("b", Json.num 2)]) ≠ [] ∧
    startConfigSync (.json (.obj [("b", Json.num 2), ("a", Json.num 1)])) true true
        [some ⟨true, none, some ⟨some (.obj [("a", Json.num 1), ("b", Json.num 2)])⟩, []⟩] 1
      = .ok ⟨.upToDate, .json (.obj [("b", Json.num 2), ("a", Json.num 1)]), false, 1, 0⟩ :=
  ⟨by decide, by decide, rfl, by decide,
    c1_canonEqual_upToDate _ _ [] 0 true true (by decide) (by decide) rfl (by decide)⟩

theorem syncLoop_exhaust (lc : Option Json) (wOk rst : Bool) (file : FileState) :
    ∀ n rs, (∀ r ∈ rs, retryable r = true) →
      syncLoop lc wOk rst file n rs = .ok ⟨.exhaustedRetries, file, false, 0, 1⟩ := by
  intro n
  induction n with
  | zero => intro rs _; rfl
  | succ n ihn =>
    intro rs h
    cases rs with
    | nil =>
      simp only [syncLoop]
      exact ihn [] (by simp)
    | cons r rest =>
      have hrest : ∀ x ∈ rest, retryable x = true :=
        fun x hx => h x (List.mem_cons_of_mem r hx)
      have hr := h r (List.mem_cons_self r rest)
      cases r with
      | none =>
        simp only [syncLoop]
        exact ihn rest hrest
      | some resp =>
        obtain ⟨succ, err, wk, root⟩ := resp
        cases succ with
        | false =>
          simp only [syncLoop]
          rw [if_pos trivial]
          exact ihn rest hrest
        | true =>
          cases wk with
          | none =>
            simp only [syncLoop]
            rw [if_neg (by decide)]
            exact ihn rest hrest
          | some w =>
            obtain ⟨cfg⟩ := w
            cases cfg with
            | none =>
              simp only [syncLoop]
              rw [if_neg (by decide)]
              exact ihn rest hrest
            | some c =>
              simp only [retryable, Bool.not_true, Bool.false_or] at hr
              simp only [syncLoop]
              rw [if_neg (by decide)]
              by_cases hf : jsFalsy c = true
              · rw [if_pos hf]
                exact ihn rest hrest
              · have hf2 : jsFalsy c = false := by
                  revert hf
                  cases jsFalsy c <;> simp
                rw [hf2] at hr
                simp only [Bool.false_or, decide_eq_true_eq] at hr
                rw [if_neg hf, if_pos hr]
                exact ihn rest hrest

/-- C3 (amended): in the primary config-sync variant, a run in which every
attempt fails (network failure, non-success response, or missing, falsy or
empty payload) returns the ExhaustedRetries outcome through the onSyncError
callback without throwing, and the local configuration file is never
written.  The amendment notes that the second config-sync variant in the
sources both invokes the error callback and then throws the exhaustion error
(see the counterexample). -/
theorem c3_exhaustedRetries (file : FileState) (writeOk restartAfterSync : Bool)
    (rs : List (Option ApiResponse)) (n : Nat)
    (h : ∀ r ∈ rs, retryable r = true) :
    startConfigSync file writeOk restartAfterSync rs n
      = .ok ⟨.exhaustedRetries, file, false, 0, 1⟩ :=
  syncLoop_exhaust (readLocalConfig file) writeOk restartAfterSync file n rs h

/-- Counterexample to C3 as stated: the second startConfigSync variant
throws after exhausting a set retry bound, instead of returning the outcome
through the callback only. -/
theorem c3_counterexample :
    retryable none = true ∧
    startConfigSyncV2 [none] 1 = .error .syncFailed ∧
    startConfigSyncV2 [none] 1 ≠ .ok () :=
  ⟨rfl, rfl, by simp [startConfigSyncV2, syncLoopV2]⟩

/-- Witness for C3 on two failing attempts with a budget of two. -/
theorem c3_witness :
    retryable none = true ∧
    startConfigSync (.json (.obj [("a", Json.num 1)])) true true [none, none] 2
      = .ok ⟨.exhaustedRetries, .json (.obj [("a", Json.num 1)]), false, 0, 1⟩ :=
  ⟨rfl, c3_exhaustedRetries _ _ _ _ _ (by decide)⟩

/-- C6 (amended): only the nested worker.configs response shape is accepted.
A success response whose configuration fields sit at the response root is
treated exactly like a missing payload: the attempt is consumed and the loop
retries, whatever the root fields contain. -/
theorem c6_rootShapeIgnored (file : FileState) (writeOk restartAfterSync : Bool)
    (err : Option String) (root : List (String × Json))
    (rest : List (Option ApiResponse)) (n : Nat) :
    startConfigSync file writeOk restartAfterSync
        (some ⟨true, err, none, root⟩ :: rest) (n + 1)
      = startConfigSync file writeOk restartAfterSync rest n := rfl

/-- Counterexample to C6 as stated: a root-shape response whose fields match
the local configuration is not resolved.  The primary variant exhausts its
budget instead of returning UpToDate, and the second variant crashes with a
TypeError when dereferencing worker.configs. -/
theorem c6_counterexample :
    startConfigSync (.json (.obj [("a", Json.num 1)])) true true
        [some ⟨true, none, none, [("a", Json.num 1)]⟩] 1
      = .ok ⟨.exhaustedRetries, .json (.obj [("a", Json.num 1)]), false, 0, 1⟩ ∧
    startConfigSyncV2 [some ⟨true, none, none, [("a", Json.num 1)]⟩] 5
      = .error .typeError ∧
    SyncOutcome.exhaustedRetries ≠ SyncOutcome.upToDate :=
  ⟨rfl, rfl, by decide⟩

/-- C7: a missing or unparseable local file reads as no local configuration
rather than as an error, and the first well-formed remote payload then
replaces the local file and ends the run with the Updated outcome; in
particular an absent file with remote configs holding the key a yields
Updated with the file containing exactly that object. -/
theorem c7_missingLocalUpdated :
    readLocalConfig .absent = none ∧ readLocalConfig .malformed = none ∧
    ∀ (file : FileState) (c : Json) (rest : List (Option ApiResponse)) (n : Nat)
      (restartAfterSync : Bool),
      readLocalConfig file = none → jsFalsy c = false → objKeys c ≠ [] →
      startConfigSync file true restartAfterSync
          (some ⟨true, none, some ⟨some c⟩, []⟩ :: rest) (n + 1)
        = .ok ⟨.updated, .json c, restartAfterSync, 1, 0⟩ := by
  refine ⟨rfl, rfl, ?_⟩
  intro file c rest n restartAfterSync hread hfalsy hne
  unfold startConfigSync
  rw [hread]
  rw [syncLoop_firstValid none true restartAfterSync file none [] c rest n hfalsy hne]
  simp [configsAreEqual, writeLocalConfig]

/-- Witness for C7 on the specified scenario: absent local file, remote
worker.configs holding the single key a. -/
theorem c7_witness :
    readLocalConfig .absent = none ∧
    jsFalsy (Json.obj [("a", Json.num 1)]) = false ∧
    objKeys (Json.obj [("a", Json.num 1)]) ≠ [] ∧
    startConfigSync .absent true true
        [some ⟨true, none, some ⟨some (.obj [("a", Json.num 1)])⟩, []⟩] 1
      = .ok ⟨.updated, .json (.obj [("a", Json.num 1)]), true, 1, 0⟩ :=
  ⟨rfl, rfl, by decide, c7_missingLocalUpdated.2.2 .absent _ [] 0 true rfl rfl (by decide)⟩

/-- C9: when the local configurations differ and the atomic replace fails at
the filesystem level, the error is rethrown out of startConfigSync as a hard
failure instead of being swallowed into a retry or a soft outcome. -/
theorem c9_writeFailurePropagates (file : FileState) (c : Json) (err : Option String)
    (rest : List (Option ApiResponse)) (n : Nat) (restartAfterSync : Bool)
    (hfalsy : jsFalsy c = false) (hne : objKeys c ≠ [])
    (hneq : configsAreEqual (readLocalConfig file) c = false) :
    startConfigSync file false restartAfterSync
        (some ⟨true, err, some ⟨some c⟩, []⟩ :: rest) (n + 1)
      = .error .writeError := by
  unfold startConfigSync
  rw [syncLoop_firstValid (readLocalConfig file) false restartAfterSync file err [] c
    rest n hfalsy hne]
  rw [hneq]
  simp [writeLocalConfig]

/-- Witness for C9: absent local file, valid payload, failing filesystem. -/
theorem c9_witness :
    jsFalsy (Json.obj [("a", Json.num 1)]) = false ∧
    objKeys (Json.obj [("a", Json.num 1)]) ≠ [] ∧
    configsAreEqual (readLocalConfig .absent) (Json.obj [("a", Json.num 1)]) = false ∧
    startConfigSync .absent false true
        [some ⟨true, none, some ⟨some (.obj [("a", Json.num 1)])⟩, []⟩] 1
      = .error .writeError :=
  ⟨rfl, by decide, rfl,
    c9_writeFailurePropagates .absent _ none [] 0 true rfl (by decide) rfl⟩

/-- C10 (amended): the equality check ignores the top-level meta and wizard
fields, so a local and a remote configuration that agree after dropping
those fields are judged equal: the run returns UpToDate, the file is not
written and the restart side effect does not fire.  The amendment restricts
the remote payload to keep at least one key, because an empty remote configs
object is treated as an invalid payload and retried (see the
counterexample). -/
theorem c10_ignoredFieldsUpToDate (lfs rfs : List (String × Json))
    (rest : List (Option ApiResponse)) (n : Nat) (writeOk restartAfterSync : Bool)
    (heq : removeIgnoredFields (.obj lfs) = removeIgnoredFields (.obj rfs))
    (hne : objKeys (Json.obj rfs) ≠ []) :
    startConfigSync (.json (.obj lfs)) writeOk restartAfterSync
        (some ⟨true, none, some ⟨some (.obj rfs)⟩, []⟩ :: rest) (n + 1)
      = .ok ⟨.upToDate, .json (.obj lfs), false, 1, 0⟩ := by
  have hceq : configsAreEqual (some (.obj lfs)) (.obj rfs) = true := by
    show (calculateMd5 (stringify (sortObjectKeys (removeIgnoredFields (Json.obj lfs))))
      == calculateMd5 (stringify (sortObjectKeys (removeIgnoredFields (Json.obj rfs))))) = true
    rw [heq]
    exact beq_self_eq_true _
  unfold startConfigSync
  simp only [readLocalConfig]
  rw [syncLoop_firstValid (some (Json.obj lfs)) writeOk restartAfterSync
    (FileState.json (Json.obj lfs)) none [] (Json.obj rfs) rest n rfl hne, if_pos hceq]

/-- Counterexample to C10 as stated: a local file holding only a meta field
and an empty remote configuration differ only in the ignored meta field, yet
the run returns ExhaustedRetries rather than UpToDate, because the empty
payload is treated as invalid and retried. -/
theorem c10_counterexample :
    removeIgnoredFields (Json.obj [("meta", Json.num 1)]) = removeIgnoredFields (Json.obj []) ∧
    startConfigSync (.json (.obj [("meta", Json.num 1)])) true true
        [some ⟨true, none, some ⟨some (.obj [])⟩, []⟩] 1
      = .ok ⟨.exhaustedRetries, .json (.obj [("meta", Json.num 1)]), false, 0, 1⟩ ∧
    SyncOutcome.exhaustedRetries ≠ SyncOutcome.upToDate :=
  ⟨rfl, rfl, by decide⟩

/-- Witness for C10: the configurations differ only in meta and wizard and
the run returns UpToDate without writing or restarting. -/
theorem c10_witness :
    removeIgnoredFields (Json.obj [("a", Json.num 1), ("meta", Json.num 0)])
      = removeIgnoredFields (Json.obj [("wizard", Json.num 2), ("a", Json.num 1)]) ∧
    objKeys (Json.obj [("wizard", Json.num 2), ("a", Json.num 1)]) ≠ [] ∧
    startConfigSync (.json (.obj [("a", Json.num 1), ("meta", Json.num 0)])) true true
        [some ⟨true, none, some ⟨some (.obj [("wizard", Json.num 2), ("a", Json.num 1)])⟩, []⟩] 1
      = .ok ⟨.upToDate, .json (.obj [("a", Json.num 1), ("meta", Json.num 0)]), false, 1, 0⟩ :=
  ⟨rfl, by decide, c10_ignoredFieldsUpToDate _ _ [] 0 true true rfl (by decide)⟩


theorem countP_set_add (p : SockStatus → Bool) :
    ∀ (l : List SockStatus) (i : Nat) (v : SockStatus), i < l.length →
      (l.set i v).countP p + (if p (l.getD i .closed) then 1 else 0)
        = l.countP p + (if p v then 1 else 0)
  | [], i, v, h => by simp at h
  | a :: tl, 0, v, _ => by
    simp only [List.set, List.countP_cons, List.getD_cons_zero]
    omega
  | a :: tl, i + 1, v, h => by
    have ih := countP_set_add p tl i v (by simpa using h)
    simp only [List.set, List.countP_cons, List.getD_cons_succ]
    omega

theorem countP_pos_of_getD (p : SockStatus → Bool) (l : List SockStatus) (i : Nat)
    (h : i < l.length) (hp : p (l.getD i .closed) = true) : 1 ≤ l.countP p := by
  rw [List.getD_eq_getElem l .closed h] at hp
  exact List.countP_pos_iff.mpr ⟨l[i], List.getElem_mem h, hp⟩

/-- Unpacking of the client invariant on a literal state. -/
theorem wsInv_mk (socks : List SockStatus) (wsr : Option Nat) (rt pt ic : Bool)
    (fw sn : List Json) (pd : Nat) :
    wsInv ⟨socks, wsr, rt, pt, ic, fw, sn, pd⟩ = true ↔
      socks.countP (fun st => !decide (st = SockStatus.closed)) ≤ 1 ∧
      (rt = true → socks.countP (fun st => !decide (st = SockStatus.closed)) = 0) ∧
      (ic = true → rt = false) := by
  unfold wsInv MspbotsWSClient.liveCount
  cases rt <;> cases ic <;> simp

/-- Message handling only touches the fwd, sent and pending fields. -/
theorem handleMessage_core (s : MspbotsWSClient) (d : RawMsg) :
    (s.handleMessage d).socks = s.socks
      ∧ (s.handleMessage d).reconnectTimer = s.reconnectTimer
      ∧ (s.handleMessage d).isClosed = s.isClosed := by
  unfold MspbotsWSClient.handleMessage
  cases d with
  | malformed => exact ⟨rfl, rfl, rfl⟩
  | frame event =>
    repeat' split
    all_goals exact ⟨rfl, rfl, rfl⟩

/-- Heartbeat sending only touches the sent field. -/
theorem sendPing_core (s : MspbotsWSClient) :
    s.sendPing.socks = s.socks ∧ s.sendPing.reconnectTimer = s.reconnectTimer
      ∧ s.sendPing.isClosed = s.isClosed := by
  unfold MspbotsWSClient.sendPing
  repeat' split
  all_goals exact ⟨rfl, rfl, rfl⟩

/-- Stability of the invariant under states equal on the observed fields. -/
theorem wsInv_of_core {t u : MspbotsWSClient} (hs : t.socks = u.socks)
    (hr : t.reconnectTimer = u.reconnectTimer) (hi : t.isClosed = u.isClosed)
    (h : wsInv u = true) : wsInv t = true := by
  unfold wsInv MspbotsWSClient.liveCount at *
  rw [hs, hr, hi]
  exact h

/-- Closing a live socket empties the live count when at most one socket is
live. -/
theorem liveP_set_closed (l : List SockStatus) (i : Nat) (h : i < l.length)
    (hne : l.getD i .closed ≠ SockStatus.closed)
    (hle : l.countP (fun st => !decide (st = SockStatus.closed)) ≤ 1) :
    (l.set i SockStatus.closed).countP (fun st => !decide (st = SockStatus.closed)) = 0 := by
  have hcnt := countP_set_add (fun st => !decide (st = SockStatus.closed)) l i SockStatus.closed h
  have hpos := countP_pos_of_getD (fun st => !decide (st = SockStatus.closed)) l i h
    (by simpa using hne)
  simp only [hne] at hcnt
  simp at hcnt
  omega

/-- Marking a live socket as closing keeps the live count. -/
theorem liveP_set_closing (l : List SockStatus) (i : Nat) (h : i < l.length)
    (hne : l.getD i .closed ≠ SockStatus.closed) :
    (l.set i SockStatus.closing).countP (fun st => !decide (st = SockStatus.closed))
      = l.countP (fun st => !decide (st = SockStatus.closed)) := by
  have hcnt := countP_set_add (fun st => !decide (st = SockStatus.closed)) l i SockStatus.closing h
  simp only [hne] at hcnt
  simp at hcnt
  omega

/-- One valid non-connect event preserves the client invariant. -/
theorem wsInv_step (s : MspbotsWSClient) (e : WSEv) (hInv : wsInv s = true)
    (hOk : s.evOk e = true) (hnc : isConnectCall e = false) :
    wsInv (s.applyEv e) = true := by
  obtain ⟨socks, wsr, rt, pt, ic, fw, sn, pd⟩ := s
  obtain ⟨h1, h2, h3⟩ := (wsInv_mk socks wsr rt pt ic fw sn pd).mp hInv
  cases e with
  | connectCall t => simp [isConnectCall] at hnc
  | reconnectFire t =>
    have htimer : rt = true := hOk
    subst htimer
    have hlive := h2 rfl
    have hic : ic = false := by
      cases ic
      · rfl
      · exact absurd (h3 rfl) (by simp)
    subst hic
    cases t with
    | true =>
      show wsInv ⟨socks, wsr, true, false, false, fw, sn, pd⟩ = true
      rw [wsInv_mk]
      exact ⟨by omega, ⟨fun _ => hlive, fun hx => absurd hx Bool.false_ne_true⟩⟩
    | false =>
      show wsInv ⟨socks ++ [SockStatus.connecting], some socks.length,
        false, pt, false, fw, sn, pd⟩ = true
      rw [wsInv_mk]
      refine ⟨?_, ⟨fun hx => absurd hx Bool.false_ne_true,
        fun hx => absurd hx Bool.false_ne_true⟩⟩
      rw [List.countP_append]
      simp [hlive]
  | sockOpen i =>
    have hst : socks.getD i .closed = SockStatus.connecting := of_decide_eq_true hOk
    have hlen : i < socks.length := by
      by_contra hge
      rw [List.getD_eq_default socks .closed (by omega)] at hst
      cases hst
    have hcnt := countP_set_add (fun st => !decide (st = SockStatus.closed))
      socks i SockStatus.opened hlen
    rw [hst] at hcnt
    simp only [decide_eq_true_eq] at hcnt
    show wsInv ⟨socks.set i SockStatus.opened, wsr, rt, true, ic, fw, sn, pd⟩ = true
    rw [wsInv_mk]
    simp at hcnt
    refine ⟨by omega, ⟨fun hrt => ?_, h3⟩⟩
    have := h2 hrt
    omega
  | sockMsg i d =>
    obtain ⟨ha, hb, hc⟩ := handleMessage_core ⟨socks, wsr, rt, pt, ic, fw, sn, pd⟩ d
    exact wsInv_of_core ha hb hc hInv
  | sockErr i => exact hInv
  | sockClose i =>
    have hst0 : (!decide (socks.getD i .closed = SockStatus.closed)) = true := hOk
    have hst : ¬(socks.getD i .closed = SockStatus.closed) := by
      simpa using hst0
    have hlen : i < socks.length := by
      by_contra hge
      exact hst (List.getD_eq_default socks .closed (by omega))
    have hset0 := liveP_set_closed socks i hlen hst h1
    cases ic with
    | true =>
      have hrt : rt = false := h3 rfl
      subst hrt
      show wsInv ⟨socks.set i SockStatus.closed, wsr, false, pt, true, fw, sn, pd⟩ = true
      rw [wsInv_mk]
      exact ⟨by omega, ⟨fun hx => absurd hx Bool.false_ne_true, fun _ => rfl⟩⟩
    | false =>
      show wsInv ⟨socks.set i SockStatus.closed, wsr, true, false, false, fw, sn, pd⟩ = true
      rw [wsInv_mk]
      exact ⟨by omega, ⟨fun _ => hset0, fun hx => absurd hx Bool.false_ne_true⟩⟩
  | pingFire =>
    obtain ⟨ha, hb, hc⟩ := sendPing_core ⟨socks, wsr, rt, pt, ic, fw, sn, pd⟩
    exact wsInv_of_core ha hb hc hInv
  | stopCall =>
    cases wsr with
    | none =>
      show wsInv ⟨socks, none, false, false, true, fw, sn, pd⟩ = true
      rw [wsInv_mk]
      exact ⟨h1, ⟨fun hx => absurd hx Bool.false_ne_true, fun _ => rfl⟩⟩
    | some i =>
      show wsInv ⟨if socks.getD i .closed = SockStatus.closed then socks
        else socks.set i SockStatus.closing, none, false, false, true, fw, sn, pd⟩ = true
      by_cases hcl : socks.getD i .closed = SockStatus.closed
      · rw [if_pos hcl, wsInv_mk]
        exact ⟨h1, ⟨fun hx => absurd hx Bool.false_ne_true, fun _ => rfl⟩⟩
      · rw [if_neg hcl, wsInv_mk]
        have hlen : i < socks.length := by
          by_contra hge
          exact hcl (List.getD_eq_default socks .closed (by omega))
        have hkeep := liveP_set_closing socks i hlen hcl
        exact ⟨by omega, ⟨fun hx => absurd hx Bool.false_ne_true, fun _ => rfl⟩⟩
  | handlerDone => exact hInv

theorem wsInv_runTrace : ∀ (evs : List WSEv) (s : MspbotsWSClient),
    wsInv s = true → validTrace s evs = true → (∀ e ∈ evs, isConnectCall e = false) →
    wsInv (runTrace s evs) = true
  | [], s, hInv, _, _ => hInv
  | e :: es, s, hInv, hV, hnc => by
    simp only [validTrace, Bool.and_eq_true] at hV
    exact wsInv_runTrace es (s.applyEv e)
      (wsInv_step s e hInv hV.1 (hnc e (List.mem_cons_self e es))) hV.2
      fun x hx => hnc x (List.mem_cons_of_mem e hx)

theorem wsInv_le_one {t : MspbotsWSClient} (h : wsInv t = true) :
    t.liveCount ≤ 1 ∧ t.openCount ≤ 1 := by
  obtain ⟨socks, wsr, rt, pt, ic, fw, sn, pd⟩ := t
  obtain ⟨h1, _, _⟩ := (wsInv_mk socks wsr rt pt ic fw sn pd).mp h
  have hmono : List.countP (fun st => decide (st = SockStatus.opened)) socks
      ≤ List.countP (fun st => !decide (st = SockStatus.closed)) socks := by
    apply List.countP_mono_left
    intro a _ hpa
    have ha : a = SockStatus.opened := of_decide_eq_true hpa
    subst ha
    rfl
  exact ⟨h1, by
    show List.countP (fun st => decide (st = SockStatus.opened)) socks ≤ 1
    omega⟩

/-- C4 (amended): when connect is invoked once, as monitorMspBotsProvider
does, every further valid sequence of socket open, message, error and close
events, timer firings and stop calls keeps the invariant: at most one
underlying socket is live and in particular no two sockets are
simultaneously open, and a reconnect timer is armed only when every socket
is fully closed, so a reconnect attempt begins only after the previous
socket has fully closed.  The amendment restricts the external connect call
to happen once, because the public connect method has no in-progress guard:
a second connect call overlaps two live sockets (see the counterexample). -/
theorem c4_singleLiveSocket (s : MspbotsWSClient) (evs : List WSEv)
    (hInv : wsInv s = true) (hV : validTrace s evs = true)
    (hnc : ∀ e ∈ evs, isConnectCall e = false) :
    wsInv (runTrace s evs) = true ∧ (runTrace s evs).liveCount ≤ 1
      ∧ (runTrace s evs).openCount ≤ 1 := by
  have h := wsInv_runTrace evs s hInv hV hnc
  exact ⟨h, (wsInv_le_one h).1, (wsInv_le_one h).2⟩

/-- Counterexample to C4 as stated: two connect calls in a row are a valid
event sequence (connect has no in-progress guard), and after both sockets
open, two sockets are simultaneously open. -/
theorem c4_counterexample :
    validTrace initClient
      [WSEv.connectCall false, WSEv.connectCall false, WSEv.sockOpen 0, WSEv.sockOpen 1]
      = true ∧
    (runTrace initClient
      [WSEv.connectCall false, WSEv.connectCall false, WSEv.sockOpen 0, WSEv.sockOpen 1]).openCount
      = 2 :=
  ⟨rfl, rfl⟩

/-- Witness for C4: after the single initial connect, a full
open, close, reconnect, open cycle keeps at most one live socket. -/
theorem c4_witness :
    wsInv (runTrace initClient [WSEv.connectCall false]) = true ∧
    validTrace (runTrace initClient [WSEv.connectCall false])
      [WSEv.sockOpen 0, WSEv.sockClose 0, WSEv.reconnectFire false, WSEv.sockOpen 1] = true ∧
    isConnectCall (WSEv.sockOpen 0) = false ∧
    isConnectCall (WSEv.sockClose 0) = false ∧
    isConnectCall (WSEv.reconnectFire false) = false ∧
    isConnectCall (WSEv.sockOpen 1) = false ∧
    (wsInv (runTrace (runTrace initClient [WSEv.connectCall false])
        [WSEv.sockOpen 0, WSEv.sockClose 0, WSEv.reconnectFire false, WSEv.sockOpen 1]) = true ∧
      (runTrace (runTrace initClient [WSEv.connectCall false])
        [WSEv.sockOpen 0, WSEv.sockClose 0, WSEv.reconnectFire false, WSEv.sockOpen 1]).liveCount ≤ 1 ∧
      (runTrace (runTrace initClient [WSEv.connectCall false])
        [WSEv.sockOpen 0, WSEv.sockClose 0, WSEv.reconnectFire false, WSEv.sockOpen 1]).openCount ≤ 1) :=
  ⟨rfl, rfl, rfl, rfl, rfl, rfl,
    c4_singleLiveSocket (runTrace initClient [WSEv.connectCall false])
      [WSEv.sockOpen 0, WSEv.sockClose 0, WSEv.reconnectFire false, WSEv.sockOpen 1]
      rfl rfl (by decide)⟩

/-- Unpacking of the quiescence predicate on a literal state. -/
theorem afterStop_mk (socks : List SockStatus) (wsr : Option Nat) (rt pt ic : Bool)
    (fw sn : List Json) (pd : Nat) :
    afterStop ⟨socks, wsr, rt, pt, ic, fw, sn, pd⟩ = true ↔
      ic = true ∧ rt = false ∧ wsr = none := by
  unfold afterStop
  cases rt <;> cases ic <;> simp

/-- Message handling on a client without a referenced socket only appends to
the forwarded log and bumps the running-handler counter. -/
theorem handleMessage_noWs (socks : List SockStatus) (rt pt ic : Bool)
    (fw sn : List Json) (pd : Nat) (d : RawMsg) :
    ∃ fw2 pd2, MspbotsWSClient.handleMessage ⟨socks, none, rt, pt, ic, fw, sn, pd⟩ d
      = ⟨socks, none, rt, pt, ic, fw2, sn, pd2⟩ := by
  unfold MspbotsWSClient.handleMessage
  cases d with
  | malformed => exact ⟨fw, pd, rfl⟩
  | frame event =>
    repeat' split
    all_goals first
      | exact ⟨fw, pd, rfl⟩
      | exact ⟨fw ++ [event], pd + 1, rfl⟩
      | simp_all

/-- After close has returned, every valid event keeps the client quiescent:
no socket is created, nothing is sent, no timer is armed. -/
theorem afterStop_step (s : MspbotsWSClient) (e : WSEv) (hA : afterStop s = true)
    (hOk : s.evOk e = true) :
    afterStop (s.applyEv e) = true ∧ (s.applyEv e).socks.length = s.socks.length
      ∧ (s.applyEv e).sent = s.sent := by
  obtain ⟨socks, wsr, rt, pt, ic, fw, sn, pd⟩ := s
  obtain ⟨hic, hrt, hwsr⟩ := (afterStop_mk socks wsr rt pt ic fw sn pd).mp hA
  subst hic
  subst hrt
  subst hwsr
  cases e with
  | connectCall t => exact ⟨hA, rfl, rfl⟩
  | reconnectFire t => exact (Bool.false_ne_true hOk).elim
  | sockOpen i =>
    exact ⟨(afterStop_mk _ _ _ _ _ _ _ _).mpr ⟨rfl, rfl, rfl⟩, List.length_set _ _ _, rfl⟩
  | sockMsg i d =>
    obtain ⟨fw2, pd2, heq⟩ := handleMessage_noWs socks false pt true fw sn pd d
    show afterStop (MspbotsWSClient.handleMessage _ d) = true
      ∧ (MspbotsWSClient.handleMessage _ d).socks.length = socks.length
      ∧ (MspbotsWSClient.handleMessage _ d).sent = sn
    rw [heq]
    exact ⟨(afterStop_mk _ _ _ _ _ _ _ _).mpr ⟨rfl, rfl, rfl⟩, rfl, rfl⟩
  | sockErr i => exact ⟨hA, rfl, rfl⟩
  | sockClose i =>
    exact ⟨(afterStop_mk _ _ _ _ _ _ _ _).mpr ⟨rfl, rfl, rfl⟩, List.length_set _ _ _, rfl⟩
  | pingFire => exact ⟨hA, rfl, rfl⟩
  | stopCall =>
    exact ⟨(afterStop_mk _ _ _ _ _ _ _ _).mpr ⟨rfl, rfl, rfl⟩, rfl, rfl⟩
  | handlerDone => exact ⟨hA, rfl, rfl⟩

theorem afterStop_runTrace : ∀ (evs : List WSEv) (s : MspbotsWSClient),
    afterStop s = true → validTrace s evs = true →
    afterStop (runTrace s evs) = true ∧ (runTrace s evs).socks.length = s.socks.length
      ∧ (runTrace s evs).sent = s.sent
  | [], s, hA, _ => ⟨hA, rfl, rfl⟩
  | e :: es, s, hA, hV => by
    simp only [validTrace, Bool.and_eq_true] at hV
    obtain ⟨hA2, hlen2, hsent2⟩ := afterStop_step s e hA hV.1
    obtain ⟨hA3, hlen3, hsent3⟩ := afterStop_runTrace es (s.applyEv e) hA2 hV.2
    refine ⟨hA3, ?_, ?_⟩
    · show (runTrace (s.applyEv e) es).socks.length = s.socks.length
      rw [hlen3, hlen2]
    · show (runTrace (s.applyEv e) es).sent = s.sent
      rw [hsent3, hsent2]

/-- C5 (amended): close is idempotent and safe from any state; it sets the
terminal closed flag, cancels the reconnect and heartbeat timers and drops
the socket reference, and afterwards no further connect attempt, reconnect
scheduling or outbound send ever occurs under any valid continuation.
The amendment drops the guarantee that no frame is forwarded after close
returns: the message path has no closed-state guard, so data still arriving
on the closing socket is forwarded to the handler (see the
counterexample). -/
theorem c5_stopQuiescence :
    (∀ s : MspbotsWSClient, s.close.close = s.close) ∧
    (∀ s : MspbotsWSClient, s.close.isClosed = true ∧ s.close.reconnectTimer = false
      ∧ s.close.pingTimer = false ∧ afterStop s.close = true) ∧
    (∀ (s : MspbotsWSClient) (evs : List WSEv), afterStop s = true →
      validTrace s evs = true →
      afterStop (runTrace s evs) = true ∧ (runTrace s evs).socks.length = s.socks.length
        ∧ (runTrace s evs).sent = s.sent) := by
  refine ⟨?_, ?_, fun s evs hA hV => afterStop_runTrace evs s hA hV⟩
  · intro s
    obtain ⟨socks, wsr, rt, pt, ic, fw, sn, pd⟩ := s
    cases wsr <;> rfl
  · intro s
    obtain ⟨socks, wsr, rt, pt, ic, fw, sn, pd⟩ := s
    cases wsr with
    | none => exact ⟨rfl, rfl, rfl, rfl⟩
    | some i => exact ⟨rfl, rfl, rfl, rfl⟩

/-- Counterexample to C5 as stated: a frame still delivered by the closing
socket after close has returned is forwarded to the handler. -/
theorem c5_counterexample :
    validTrace initClient
      [WSEv.connectCall false, WSEv.sockOpen 0, WSEv.stopCall,
       WSEv.sockMsg 0 (RawMsg.frame (Json.obj [("type", Json.str "chat"),
         ("data", Json.str "late")]))] = true ∧
    (runTrace initClient [WSEv.connectCall false, WSEv.sockOpen 0, WSEv.stopCall]).isClosed
      = true ∧
    (runTrace initClient [WSEv.connectCall false, WSEv.sockOpen 0, WSEv.stopCall]).fwd = [] ∧
    (runTrace initClient
      [WSEv.connectCall false, WSEv.sockOpen 0, WSEv.stopCall,
       WSEv.sockMsg 0 (RawMsg.frame (Json.obj [("type", Json.str "chat"),
         ("data", Json.str "late")]))]).fwd
      = [Json.obj [("type", Json.str "chat"), ("data", Json.str "late")]] :=
  ⟨rfl, rfl, rfl, rfl⟩

/-- Witness for C5 on the stopped client receiving the close event of its
closing socket. -/
theorem c5_witness :
    afterStop (runTrace initClient [WSEv.connectCall false, WSEv.sockOpen 0, WSEv.stopCall])
      = true ∧
    validTrace (runTrace initClient [WSEv.connectCall false, WSEv.sockOpen 0, WSEv.stopCall])
      [WSEv.sockClose 0] = true ∧
    (afterStop (runTrace
        (runTrace initClient [WSEv.connectCall false, WSEv.sockOpen 0, WSEv.stopCall])
        [WSEv.sockClose 0]) = true ∧
      (runTrace (runTrace initClient [WSEv.connectCall false, WSEv.sockOpen 0, WSEv.stopCall])
        [WSEv.sockClose 0]).socks.length
        = (runTrace initClient [WSEv.connectCall false, WSEv.sockOpen 0,
            WSEv.stopCall]).socks.length ∧
      (runTrace (runTrace initClient [WSEv.connectCall false, WSEv.sockOpen 0, WSEv.stopCall])
        [WSEv.sockClose 0]).sent
        = (runTrace initClient [WSEv.connectCall false, WSEv.sockOpen 0,
            WSEv.stopCall]).sent) :=
  ⟨rfl, rfl,
    c5_stopQuiescence.2.2
      (runTrace initClient [WSEv.connectCall false, WSEv.sockOpen 0, WSEv.stopCall])
      [WSEv.sockClose 0] rfl rfl⟩

theorem applyEv_fwd (s : MspbotsWSClient) (e : WSEv) :
    (s.applyEv e).fwd = s.fwd ++ (fwdFrame e).toList := by
  obtain ⟨socks, wsr, rt, pt, ic, fw, sn, pd⟩ := s
  cases e with
  | connectCall t =>
    show (MspbotsWSClient.connect _ t).fwd = fw ++ []
    unfold MspbotsWSClient.connect MspbotsWSClient.scheduleReconnect
    repeat' split
    all_goals simp
  | reconnectFire t =>
    show (MspbotsWSClient.connect _ t).fwd = fw ++ []
    unfold MspbotsWSClient.connect MspbotsWSClient.scheduleReconnect
    repeat' split
    all_goals simp
  | sockOpen i => simp [MspbotsWSClient.applyEv, fwdFrame]
  | sockMsg i d =>
    cases d with
    | malformed => simp [MspbotsWSClient.applyEv, MspbotsWSClient.handleMessage, fwdFrame]
    | frame event =>
      show (MspbotsWSClient.handleMessage _ (.frame event)).fwd = fw ++ _
      unfold MspbotsWSClient.handleMessage fwdFrame
      by_cases h1 : isNullJson event = true
      · simp [h1]
      · by_cases h2 : isPingFrame event = true
        · simp only [h1, h2]
          repeat' split
          all_goals simp_all
        · by_cases h3 : (jsTruthy event && !(frameType event == some "connection")) = true
          · simp only [h1, h2, h3]
            simp_all
          · simp only [h1, h2, h3]
            simp_all
            have hcond : ¬(jsTruthy event = true ∧ ¬frameType event = some "connection") :=
              fun hc => hc.2 (h3 hc.1)
            rw [if_neg hcond]
            rfl
  | sockErr i => simp [MspbotsWSClient.applyEv, fwdFrame]
  | sockClose i =>
    show (MspbotsWSClient.scheduleReconnect _).fwd = fw ++ []
    unfold MspbotsWSClient.scheduleReconnect
    repeat' split
    all_goals simp
  | pingFire =>
    show (MspbotsWSClient.sendPing _).fwd = fw ++ []
    unfold MspbotsWSClient.sendPing
    repeat' split
    all_goals simp
  | stopCall =>
    show (MspbotsWSClient.close _).fwd = fw ++ []
    unfold MspbotsWSClient.close
    repeat' split
    all_goals simp
  | handlerDone => simp [MspbotsWSClient.applyEv, fwdFrame]

theorem runTrace_fwd : ∀ (evs : List WSEv) (s : MspbotsWSClient),
    (runTrace s evs).fwd = s.fwd ++ evs.filterMap fwdFrame
  | [], s => by simp [runTrace]
  | e :: es, s => by
    show (runTrace (s.applyEv e) es).fwd = s.fwd ++ (e :: es).filterMap fwdFrame
    rw [runTrace_fwd es (s.applyEv e), applyEv_fwd, List.filterMap_cons]
    cases fwdFrame e <;> simp

/-- C8 (amended): frames are forwarded to the message handler in arrival
order, one emitted invocation per qualifying frame, with no application
level buffering: after any event trace the forwarded log is exactly the
ordered sequence of non-null, non-ping, truthy, non-control frames that
arrived.  The amendment drops the claim that one invocation completes
before the next is dispatched: the listener is an async function and the
event emitter does not await it, so a second invocation can start while the
first is still awaiting its side effects (see the counterexample, which
reaches a state with two handler invocations in flight). -/
theorem c8_framesInArrivalOrder (evs : List WSEv) (s : MspbotsWSClient) :
    (runTrace s evs).fwd = s.fwd ++ evs.filterMap fwdFrame :=
  runTrace_fwd evs s

/-- Counterexample to C8 as stated: a valid trace in which a second frame is
dispatched while the first handler invocation has not completed, leaving two
invocations simultaneously in flight. -/
theorem c8_counterexample :
    validTrace initClient
      [WSEv.connectCall false, WSEv.sockOpen 0,
       WSEv.sockMsg 0 (RawMsg.frame (Json.obj [("type", Json.str "chat"),
         ("data", Json.str "one")])),
       WSEv.sockMsg 0 (RawMsg.frame (Json.obj [("type", Json.str "chat"),
         ("data", Json.str "two")]))] = true ∧
    (runTrace initClient
      [WSEv.connectCall false, WSEv.sockOpen 0,
       WSEv.sockMsg 0 (RawMsg.frame (Json.obj [("type", Json.str "chat"),
         ("data", Json.str "one")])),
       WSEv.sockMsg 0 (RawMsg.frame (Json.obj [("type", Json.str "chat"),
         ("data", Json.str "two")]))]).pending = 2 ∧
    (runTrace initClient
      [WSEv.connectCall false, WSEv.sockOpen 0,
       WSEv.sockMsg 0 (RawMsg.frame (Json.obj [("type", Json.str "chat"),
         ("data", Json.str "one")])),
       WSEv.sockMsg 0 (RawMsg.frame (Json.obj [("type", Json.str "chat"),
         ("data", Json.str "two")]))]).fwd
      = [Json.obj [("type", Json.str "chat"), ("data", Json.str "one")],
         Json.obj [("type", Json.str "chat"), ("data", Json.str "two")]] :=
  ⟨rfl, rfl, rfl⟩
